import Mathlib

/-!
Shallow embedding of `src/patterns/xrd_profile.py` (pyxpb): the `Peaks`
base class together with its `MonoDetector` and `EnergyDetector`
subclasses.

External collaborators of `xrd_profile.py` (the sibling modules
`multiplicity`, `conversions`, `intensity_factors`, `detectors`,
`strain_funcs`, `beamline_details`, plus NumPy/SciPy primitives) are not
part of the analysed source.  They are modelled abstractly as fields of
an `Externals` record or, where the spec fixes a concrete formula,
modelled from the spec (marked in the doc comment of the definition).

Numbers are modelled as rationals.  NumPy float arrays are lists of
rationals; 2-D arrays are lists of rows.  Python dicts (which preserve
insertion order) are association lists updated in place.
-/

namespace XrdProfile

/-- Errors raised by the modelled code paths.  `axisModeError` is the
failure of the `assert x_axis in valid` statement of the source (the
assertion-style failure that the spec names `AxisModeError`);
`unknownMaterialError` is the failure of the external peak lookup
`peak_details`; the remaining constructors are Python built-in errors
reachable from the modelled code. -/
inductive PyError
  | axisModeError (msg : String)
  | unknownMaterialError
  | typeError (msg : String)
  | valueError (msg : String)
  | attributeError (name : String)
  | keyError (key : String)
  deriving DecidableEq, Repr

/-- Lookup in an insertion-ordered dict modelled as an association list. -/
def dictGet? {α : Type} (d : List (String × α)) (k : String) : Option α :=
  (d.find? (fun p => p.1 == k)).map Prod.snd

/-- Dict lookup of a list of rationals, with `[]` as the default value.
Theorems only use this under the registry invariant that the key is
present, where it agrees with the Python dict access. -/
def dget (d : List (String × List ℚ)) (k : String) : List ℚ :=
  (dictGet? d k).getD []

/-- Python dict assignment `d[k] = v`: replaces the value in place when
the key is present (keeping its position in the insertion order) and
appends the binding otherwise. -/
def dictSet {α : Type} (d : List (String × α)) (k : String) (v : α) :
    List (String × α) :=
  if d.any (fun p => p.1 == k) then
    d.map (fun p => if p.1 == k then (k, v) else p)
  else d ++ [(k, v)]

/-- Binary maximum on rationals, spelled out with an `if` so that the
array maximum below evaluates by kernel reduction. -/
def pyMax2 (x y : ℚ) : ℚ := if x ≤ y then y else x

/-- Model of `np.max` over a 1-D array.  NumPy raises on an empty array; the model
returns `0` there, a case reached only where noted in comments. -/
def npMax : List ℚ → ℚ
  | [] => 0
  | [x] => x
  | x :: y :: xs => pyMax2 x (npMax (y :: xs))

/-- Model of `np.linspace(a, b, n)`: `n` evenly spaced samples from `a`
to `b` inclusive. -/
def npLinspace (a b : ℚ) (n : ℕ) : List ℚ :=
  if n = 0 then []
  else if n = 1 then [a]
  else (List.range n).map (fun i => a + (b - a) * (i : ℚ) / ((n : ℚ) - 1))

/-- Python `int(x)` on the nonnegative values used by the source
(truncation and floor agree there). -/
def pyInt (x : ℚ) : ℕ := (⌊x⌋).toNat

/-- Beamline calibration data: one entry of the external table
`beamline_details.edxd_info`, as consumed by `EnergyDetector.__init__`. -/
structure BeamlineInfo where
  energy : List ℚ
  res_e_energy : List ℚ
  res_e_delta : List ℚ
  flux : List ℚ
  bins : ℕ

/-- The external collaborators of `xrd_profile.py`, specified only via
their consumed interface (spec section 1), plus the NumPy/SciPy
primitives the source applies to them.  `peak_details` returns `none`
when the lookup cannot resolve the material (the spec names this failure
`UnknownMaterialError`).  `rmax`/`qmax`/`det_q`/`det_phi` expose the
`BaseDetector` geometry object as functions of its construction
parameters `(shape, pixel_size)` and the latest `setup(energy,
sample_to_detector)` arguments.  `spline` models
`InterpolatedUnivariateSpline(xs, ys, k=1, ext=3)` applied at a point.
`sqrt2pi` and `pi` model the constants `(2*np.pi)**0.5` and `np.pi`. -/
structure Externals where
  peak_details : ℚ → String → Option (List ℚ × List ℚ × List String)
  scattering_factor : String → ℚ → ℚ
  temperature_factor : ℚ → ℚ → ℚ
  lp_factor : ℚ → ℚ
  e_to_q : ℚ → ℚ → ℚ
  q_to_e : ℚ → ℚ → ℚ
  q_to_tth : ℚ → ℚ → ℚ
  spline : List ℚ → List ℚ → ℚ → ℚ
  exp : ℚ → ℚ
  cos : ℚ → ℚ
  sin : ℚ → ℚ
  sqrt2pi : ℚ
  pi : ℚ
  rmax : ℕ × ℕ → ℚ → ℚ → ℚ → ℚ
  qmax : ℕ × ℕ → ℚ → ℚ → ℚ → ℚ
  det_q : ℕ × ℕ → ℚ → ℚ → ℚ → List (List ℚ)
  det_phi : ℕ × ℕ → ℚ → ℚ → ℚ → List (List ℚ)
  edxd_info : String → Option BeamlineInfo

/-- The class of the Python object: `Peaks` itself or one of its two
subclasses. -/
inductive DetCls
  | peaksBase
  | mono
  | edxd
  deriving DecidableEq, Repr

/-- The closure stored in `self.sigma_q`.  The monochromatic lambda
`lambda q: e_to_q(delta_energy, q_to_tth(q, self.energy))` captures
`delta_energy` by value and reads `self.energy` at call time; the
energy-dispersive variant is a spline built once from the beamline
tables. -/
inductive SigmaQSpec
  | monoSigma (delta_energy : ℚ)
  | splineData (xs ys : List ℚ)
  deriving DecidableEq, Repr

/-- The mutable attributes of a `Peaks` object.  Fields specific to one
variant are unused (and left at a dummy value) on the other:
`energy` is the monochromatic beam energy, while an `EnergyDetector`
stores the beamline energy table (kept in `energy_tbl`); `two_theta` is
the energy-dispersive scattering angle, while a `MonoDetector` stores an
angle array (kept in `two_theta_arr`).  `shape`/`pixel_size` are the
`BaseDetector` construction arguments and `det_energy`/`det_dist` the
latest `detector.setup` arguments. -/
structure PeaksState where
  cls : DetCls
  method : String
  energy : ℚ
  energy_tbl : List ℚ
  two_theta : ℚ
  two_theta_arr : List ℚ
  shape : ℕ × ℕ
  pixel_size : ℚ
  det_energy : ℚ
  det_dist : ℚ
  q_range : List ℚ
  q0 : List (String × List ℚ)
  hkl : List (String × List String)
  a : List (String × List ℚ)
  sigma : List (String × List ℚ)
  materials : List (String × (ℚ × ℚ))
  sigma_q_spec : SigmaQSpec
  flux_q_spec : Option (List ℚ × List ℚ)
  deriving DecidableEq, Repr

/-- Evaluation of the `self.sigma_q` closure at a point. -/
def evalSigmaQ (E : Externals) (s : PeaksState) (q : ℚ) : ℚ :=
  match s.sigma_q_spec with
  | .monoSigma de => E.e_to_q de (E.q_to_tth q s.energy)
  | .splineData xs ys => E.spline xs ys q

/-- Evaluation of the `self.flux_q` closure at a point.  Monochromatic
detectors store no flux spline; the code never calls `flux_q` in that
mode (the `flux` factor is the literal `1` there). -/
def evalFluxQ (E : Externals) (s : PeaksState) (q : ℚ) : ℚ :=
  match s.flux_q_spec with
  | some p => E.spline p.1 p.2 q
  | none => 1

/-- The `self.convert` closure: `lambda x: q_to_tth(x, self.energy) *
180 / np.pi` for a `MonoDetector`, `lambda x: q_to_e(x, self.two_theta)`
for an `EnergyDetector`; both read `self` at call time. -/
def convert (E : Externals) (s : PeaksState) (x : ℚ) : ℚ :=
  if s.method = "mono" then E.q_to_tth x s.energy * 180 / E.pi
  else E.q_to_e x s.two_theta

/-- The list `valid` of admissible axis names, computed identically in
`intensity_factors` and `intensity`: the q axis plus 2theta in
monochromatic mode and energy otherwise. -/
def axisValid (s : PeaksState) : List String :=
  ["q", if s.method = "mono" then "2theta" else "energy"]

/-- The assertion failure raised when the requested axis is not in
`valid`; the source formats the message from the axis and the mode. -/
def axisError (s : PeaksState) (x_axis : String) : PyError :=
  .axisModeError ("Cannot plot wrt. " ++ x_axis ++ " in " ++ s.method ++ " mode")

/-- Modelled from the spec: `strain_funcs.strain_trans` (the module is
not under `src/`): in-plane normal strain resolved along `phi`,
`e_xx*cos(phi)^2 + e_yy*sin(phi)^2 + e_xy*sin(2*phi)`. -/
def strain_trans (E : Externals) (e_xx e_yy e_xy phi : ℚ) : ℚ :=
  e_xx * E.cos phi ^ 2 + e_yy * E.sin phi ^ 2 + e_xy * E.sin (2 * phi)

/-- Modelled from the spec: `strain_funcs.strained_gaussians` (the
module is not under `src/`) at a single evaluation point: the sum over
peaks of `a_k * exp(-0.5 * ((x - q0_k*(1+strain)) / sigma_k)^2)`. -/
def strained_gaussians (E : Externals) (x : ℚ) (a q0 sigma : List ℚ)
    (strain : ℚ) : ℚ :=
  ((a.zip (q0.zip sigma)).map
    (fun p => p.1 * E.exp (-(1/2) * ((x - p.2.1 * (1 + strain)) / p.2.2) ^ 2))).sum

/-- The function `strained_gaussians` broadcast over a 1-D array of evaluation
points with a scalar strain. -/
def sgCurve (E : Externals) (xs : List ℚ) (a q0 sigma : List ℚ)
    (strain : ℚ) : List ℚ :=
  xs.map (fun x => strained_gaussians E x a q0 sigma strain)

/-- Method `Peaks.intensity_factors` with `plot=False` (the non-plotting,
numeric path).  `q` is passed explicitly; `add_peaks` always supplies
it, and `q=None` defaults to `self.q_range` at the call sites modelled
here.  Scalar factors (`i_lp` and `flux` outside their mode) are
broadcast to arrays of ones, matching their elementwise use
downstream. -/
def intensity_factors (E : Externals) (s : PeaksState) (material : String)
    (b : ℚ) (q : List ℚ) (x_axis : String) :
    Except PyError (List ℚ × List ℚ × List ℚ × List ℚ) :=
  if x_axis ∈ axisValid s then
    .ok (q.map (fun qv => if s.method = "mono" then E.lp_factor (E.q_to_tth qv s.energy) else 1),
         q.map (fun qv => E.scattering_factor material qv),
         q.map (fun qv => E.temperature_factor qv b),
         q.map (fun qv => if s.method = "edxd" then evalFluxQ E s qv else 1))
  else
    .error (axisError s x_axis)

/-- Method `Peaks.add_peaks(material, b, weight)`.  The result carries the
post-call object state in both cases: Python mutates `self` in place,
so when the external `peak_details` lookup fails the exception
propagates while the caller still holds the partially updated object.
The source stores `materials[material]` before the lookup, then `q0`
and `hkl`, then `sigma`, then `a`. -/
def add_peaks (E : Externals) (s : PeaksState) (material : String)
    (b : ℚ := 1) (weight : ℚ := 1) : Except (PyError × PeaksState) PeaksState :=
  let s1 := { s with materials := dictSet s.materials material (b, weight) }
  match E.peak_details (npMax s1.q_range) material with
  | none => .error (.unknownMaterialError, s1)
  | some (q0v, m, hklv) =>
    let s2 := { s1 with q0 := dictSet s1.q0 material q0v,
                        hkl := dictSet s1.hkl material hklv }
    match intensity_factors E s2 material b q0v "q" with
    | .error e => .error (e, s2)
    | .ok (i_lp, i_sf, i_tf, flux) =>
      let integrated_intensity :=
        (List.zipWith (fun x y => x * y)
          (List.zipWith (fun x y => x * y)
            (List.zipWith (fun x y => x * y)
              (List.zipWith (fun x y => x * y) i_sf m) i_tf) i_lp) flux).map
          (fun v => v * weight)
      let sigmav := q0v.map (fun qv => evalSigmaQ E s2 qv)
      let s3 := { s2 with sigma := dictSet s2.sigma material sigmav }
      let peak_height := List.zipWith (fun ii sg => ii / (sg * E.sqrt2pi))
        integrated_intensity sigmav
      .ok { s3 with a := dictSet s3.a material peak_height }

/-- The per-material curves computed by `Peaks.intensity`:
`strained_gaussians(self.q_range, a, q0, sigma, strain)` for each
registered material, in dict insertion order. -/
def intensityCurves (E : Externals) (s : PeaksState) (strain : ℚ) :
    List (String × List ℚ) :=
  s.q0.map (fun p => (p.1, sgCurve E s.q_range (dget s.a p.1) p.2 (dget s.sigma p.1) strain))

/-- Model of `np.sum(list_of_curves, axis=0)`.  On an empty list NumPy yields the
scalar `0.0`, which broadcasts against length-`n` arrays downstream;
the model uses the zero curve of length `n` for that case. -/
def sumCurves (ls : List (List ℚ)) (n : ℕ) : List ℚ :=
  ls.foldr (fun c acc => List.zipWith (fun x y => x + y) c acc) (List.replicate n 0)

/-- The `i_total` array of `Peaks.intensity`. -/
def intensityTotalRaw (E : Externals) (s : PeaksState) (strain : ℚ) : List ℚ :=
  sumCurves ((intensityCurves E s strain).map Prod.snd) s.q_range.length

/-- The background array of `Peaks.intensity`:
`background * np.random.rand(*i_total.shape) * np.max(i_total)`, with
the unseeded random draw modelled by the ambient function `rand`. -/
def intensityBg (rand : ℕ → ℚ) (background : ℚ) (i_total : List ℚ) : List ℚ :=
  (List.range i_total.length).map (fun k => background * (rand k * npMax i_total))

/-- The normalisation denominator of `Peaks.intensity`:
`np.max(i_total + background)` (recomputed, identically, at every loop
iteration of the source). -/
def intensityDenom (E : Externals) (rand : ℕ → ℚ) (s : PeaksState)
    (background strain : ℚ) : ℚ :=
  let t := intensityTotalRaw E s strain
  npMax (List.zipWith (fun x y => x + y) t (intensityBg rand background t))

/-- Method `Peaks.intensity(x_axis, background, strain_tensor, phi)`: checks the
axis, computes the per-material strained curves, their sum plus random
background under the key "total", divides every entry of the dict by
`np.max(i_total + background)` and returns the positional axis together
with the dict.  (The stray debug `print` calls of the source are pure
I/O and not modelled.)  With no materials registered the division is by
a zero maximum: NumPy emits NaNs there, modelled over `ℚ` by the
denominator being `0` (see `intensityDenom`); no guard exists in the
source. -/
def intensity (E : Externals) (rand : ℕ → ℚ) (s : PeaksState)
    (x_axis : String := "q") (background : ℚ := 1/100)
    (strain_tensor : ℚ × ℚ × ℚ := (0, 0, 0)) (phi : ℚ := 0) :
    Except PyError (List ℚ × List (String × List ℚ)) :=
  if x_axis ∈ axisValid s then
    let strain := strain_trans E strain_tensor.1 strain_tensor.2.1 strain_tensor.2.2 phi
    let curves := intensityCurves E s strain
    let i_total := intensityTotalRaw E s strain
    let bg := intensityBg rand background i_total
    let total := List.zipWith (fun x y => x + y) i_total bg
    let denom := npMax total
    let x := if x_axis = "q" then s.q_range else s.q_range.map (fun q => convert E s q)
    .ok (x, (dictSet curves "total" total).map (fun p => (p.1, p.2.map (fun v => v / denom))))
  else
    .error (axisError s x_axis)

/-- Constructor `MonoDetector.__init__(detector_shape, pixel_size,
sample_to_detector, energy, delta_energy)`. -/
def MonoDetector.init (E : Externals) (detector_shape : ℕ × ℕ := (2000, 2000))
    (pixel_size : ℚ := 1/5) (sample_to_detector : ℚ := 1000)
    (energy : ℚ := 100) (delta_energy : ℚ := 1/2) : PeaksState :=
  let r_max := E.rmax detector_shape pixel_size energy sample_to_detector
  let q_max := E.qmax detector_shape pixel_size energy sample_to_detector
  let q_range := npLinspace 0 q_max (pyInt r_max)
  { cls := .mono, method := "mono",
    energy := energy, energy_tbl := [],
    two_theta := 0,
    two_theta_arr := q_range.map (fun q => E.q_to_tth q energy),
    shape := detector_shape, pixel_size := pixel_size,
    det_energy := energy, det_dist := sample_to_detector,
    q_range := q_range,
    q0 := [], hkl := [], a := [], sigma := [], materials := [],
    sigma_q_spec := .monoSigma delta_energy,
    flux_q_spec := none }

/-- The re-registration loop of `MonoDetector.new_setup`: `for material
in self.materials: self.add_peaks(material, b, weight)` with `b` and
`weight` read from the current `self.materials[material]`.  The `none`
branch is unreachable: the loop runs over the keys of `materials` and
`add_peaks` never removes a key. -/
def new_setup_loop (E : Externals) :
    List String → PeaksState → Except (PyError × PeaksState) PeaksState
  | [], s => .ok s
  | material :: rest, s =>
    match dictGet? s.materials material with
    | none => new_setup_loop E rest s
    | some bw =>
      match add_peaks E s material bw.1 bw.2 with
      | .error e => .error e
      | .ok s2 => new_setup_loop E rest s2

/-- Method `MonoDetector.new_setup(energy, sample_detector)`: re-runs
`detector.setup`, re-derives `q_range`, and re-adds every registered
material.  Note the source never assigns `self.energy` (or
`self.two_theta`, or the `sigma_q`/`convert` closures, which read
`self.energy` at call time): the `energy` argument reaches only the
geometry object. -/
def new_setup (E : Externals) (s : PeaksState) (energy : ℚ)
    (sample_detector : ℚ) : Except (PyError × PeaksState) PeaksState :=
  let r_max := E.rmax s.shape s.pixel_size energy sample_detector
  let q_max := E.qmax s.shape s.pixel_size energy sample_detector
  let s1 := { s with det_energy := energy, det_dist := sample_detector,
                     q_range := npLinspace 0 q_max (pyInt r_max) }
  new_setup_loop E (s1.materials.map Prod.fst) s1

/-- Python slice `l[c:-c]`.  Note `l[0:-0]` is empty (`-0 == 0`); the
source only takes this slice with `c` possibly zero in the second
dimension. -/
def pySliceTrim {α : Type} (c : ℕ) (l : List α) : List α :=
  if c = 0 then [] else (l.drop c).take (l.length - 2 * c)

/-- Model of `np.concatenate` over the dict values of `q0` and its `a`/`sigma`
analogues in `MonoDetector.rings`: all dict values flattened in
insertion order. -/
def ringsQ0all (s : PeaksState) : List ℚ := (s.q0.map Prod.snd).flatten

def ringsAall (s : PeaksState) : List ℚ := (s.a.map Prod.snd).flatten

def ringsSigall (s : PeaksState) : List ℚ := (s.sigma.map Prod.snd).flatten

/-- The scalar `a_max = np.max(strained_gaussians(q0, a, q0, sigma, 0))`
of `MonoDetector.rings`. -/
def ringsAmax (E : Externals) (s : PeaksState) : ℚ :=
  npMax ((ringsQ0all s).map
    (fun x => strained_gaussians E x (ringsAall s) (ringsQ0all s) (ringsSigall s) 0))

/-- The surviving peak parameters after the exclusion mask
`a > exclude_criteria * np.max(a_max)` (with scalar `a_max`,
`np.max(a_max) == a_max`). -/
def ringsKeep (E : Externals) (s : PeaksState) (exclude_criteria : ℚ) :
    List (ℚ × ℚ × ℚ) :=
  ((ringsAall s).zip ((ringsQ0all s).zip (ringsSigall s))).filter
    (fun p => exclude_criteria * ringsAmax E s < p.1)

/-- The cropped per-pixel array of `MonoDetector.rings`:
`arr[crop[0]:-crop[0], crop[1]:-crop[1]]`, with `crop = [None, None]`
when `crop[0] == 0`. -/
def ringsCropArr (s : PeaksState) (crop : ℚ) (arr : List (List ℚ)) :
    List (List ℚ) :=
  let c0 := pyInt (crop * (s.shape.1 : ℚ) / 2)
  let c1 := pyInt (crop * (s.shape.2 : ℚ) / 2)
  if c0 = 0 then arr else (pySliceTrim c0 arr).map (fun row => pySliceTrim c1 row)

/-- The image of `MonoDetector.rings` after the Gaussian evaluation,
division by `np.max(a_max)` and addition of the random background, but
before the final rescale.  `rand2 i j` models the unseeded
`np.random.rand` draw at pixel `(i, j)` of the cropped grid. -/
def ringsRaw (E : Externals) (rand2 : ℕ → ℕ → ℚ) (s : PeaksState)
    (exclude_criteria crop background : ℚ) (strain_tensor : ℚ × ℚ × ℚ) :
    List (List ℚ) :=
  let q := ringsCropArr s crop (E.det_q s.shape s.pixel_size s.det_energy s.det_dist)
  let phi := ringsCropArr s crop (E.det_phi s.shape s.pixel_size s.det_energy s.det_dist)
  let keep := ringsKeep E s exclude_criteria
  let aK := keep.map Prod.fst
  let q0K := keep.map (fun p => p.2.1)
  let sigK := keep.map (fun p => p.2.2)
  (q.zip phi).enum.map (fun r =>
    (r.2.1.zip r.2.2).enum.map (fun px =>
      strained_gaussians E px.2.1 aK q0K sigK
          (strain_trans E strain_tensor.1 strain_tensor.2.1 strain_tensor.2.2 px.2.2)
        / ringsAmax E s
        + rand2 r.1 px.1 * background))

/-- Method `MonoDetector.rings(exclude_criteria, crop, background,
strain_tensor)`.  With an empty registry the `np.concatenate` over the
dict values raises `ValueError`; otherwise the image is rescaled by its
own `np.nanmax` as the final step (the rational model is NaN-free, so
`nanmax` is `npMax` of the flattened image). -/
def rings (E : Externals) (rand2 : ℕ → ℕ → ℚ) (s : PeaksState)
    (exclude_criteria : ℚ := 1/100) (crop : ℚ := 0) (background : ℚ := 1/50)
    (strain_tensor : ℚ × ℚ × ℚ := (0, 0, 0)) :
    Except PyError (List (List ℚ)) :=
  if s.q0.isEmpty then
    .error (.valueError "need at least one array to concatenate")
  else
    let raw := ringsRaw E rand2 s exclude_criteria crop background strain_tensor
    .ok (raw.map (fun row => row.map (fun v => v / npMax raw.flatten)))

/-- Constructor `EnergyDetector.__init__(two_theta, beamline)`.  In the source
`self.energy` holds the beamline energy table (kept here in
`energy_tbl`; the scalar `energy` field is monochromatic-only and never
read on energy-dispersive paths).  A missing beamline key raises
`KeyError` from the `edxd_info` dict lookup. -/
def EnergyDetector.init (E : Externals) (two_theta : ℚ) (beamline : String) :
    Except PyError PeaksState :=
  match E.edxd_info beamline with
  | none => .error (.keyError beamline)
  | some info =>
    let delta_e := List.zipWith (fun e d => e * d) info.res_e_energy info.res_e_delta
    let q_res_x := info.res_e_energy.map (fun e => E.e_to_q e two_theta)
    let q_res_y := delta_e.map (fun d => E.e_to_q d two_theta)
    let qtbl := info.energy.map (fun e => E.e_to_q e two_theta)
    .ok { cls := .edxd, method := "edxd",
          energy := 0, energy_tbl := info.energy,
          two_theta := two_theta, two_theta_arr := [],
          shape := (0, 0), pixel_size := 0, det_energy := 0, det_dist := 0,
          q_range := npLinspace 0 (npMax qtbl) info.bins,
          q0 := [], hkl := [], a := [], sigma := [], materials := [],
          sigma_q_spec := .splineData q_res_x q_res_y,
          flux_q_spec := some (qtbl, info.flux) }

/-- The methods defined by the class body of `Peaks` in the source. -/
def peaksMethods : List String :=
  ["intensity_factors", "add_peaks", "relative_heights", "intensity",
   "plot_intensity"]

/-- The methods available on each class: `MonoDetector` adds
`new_setup`, `rings` and `plot_rings` to the inherited `Peaks` methods;
`EnergyDetector` defines no methods of its own beyond `__init__`. -/
def classMethods : DetCls → List String
  | .peaksBase => peaksMethods
  | .mono => peaksMethods ++ ["new_setup", "rings", "plot_rings"]
  | .edxd => peaksMethods

/-- Attribute lookup followed by a call of `rings`: Python raises
`AttributeError` when the class of the object does not define the
method. -/
def call_rings (E : Externals) (rand2 : ℕ → ℕ → ℚ) (s : PeaksState)
    (exclude_criteria crop background : ℚ) (strain_tensor : ℚ × ℚ × ℚ) :
    Except PyError (List (List ℚ)) :=
  if "rings" ∈ classMethods s.cls then
    rings E rand2 s exclude_criteria crop background strain_tensor
  else .error (.attributeError "rings")

/-- A fragment of Python runtime values, enough for the unpacking
assignment in `Peaks.__init__`. -/
inductive PyVal
  | pyNone
  | tup (items : List PyVal)

/-- Python iterable unpacking `x, y = v` with two targets. -/
def unpack2 : PyVal → Except PyError (PyVal × PyVal)
  | .tup [x, y] => .ok (x, y)
  | .tup l => .error (.valueError
      (if l.length < 2 then "not enough values to unpack" else "too many values to unpack"))
  | .pyNone => .error (.typeError "cannot unpack non-iterable NoneType object")

/-- Constructor `Peaks.__init__`: its first statement is the unpacking assignment
`self.energy, self.two_theta = None`.  The remaining statements are
plain attribute assignments of constants and are only reached when the
unpacking succeeds. -/
def Peaks.init : Except PyError Unit :=
  match unpack2 .pyNone with
  | .error e => .error e
  | .ok _ => .ok ()

/-- The object state carried by the result of a mutating call, whether
or not an exception was raised (Python mutates `self` in place, so the
caller still holds the object either way). -/
def stateOf : Except (PyError × PeaksState) PeaksState → PeaksState
  | .ok s => s
  | .error p => p.2

/-- Whether a call returned normally. -/
def isOkE {ε α : Type} : Except ε α → Bool
  | .ok _ => true
  | .error _ => false

/-- Modelled from the spec: a concrete instantiation of the external
interface (the collaborators excluded from the analysed source), with
simple total stand-ins: the conversions are energy- and
angle-dependent products as the spec describes pure geometric/energy
conversions, and the peak lookup returns a single reflection. -/
def defaultE : Externals where
  peak_details := fun _ _ => some ([1], [1], ["111"])
  scattering_factor := fun _ _ => 1
  temperature_factor := fun _ _ => 1
  lp_factor := fun t => t
  e_to_q := fun de tth => de * tth
  q_to_e := fun q _ => q
  q_to_tth := fun q en => q * en
  spline := fun _ _ _ => 1
  exp := fun _ => 1
  cos := fun _ => 1
  sin := fun _ => 0
  sqrt2pi := 1
  pi := 3
  rmax := fun _ _ _ _ => 2
  qmax := fun _ _ _ _ => 3
  det_q := fun _ _ _ _ => [[1]]
  det_phi := fun _ _ _ _ => [[0]]
  edxd_info := fun b => if b == "i12" then some ⟨[1], [1], [1], [1], 2⟩ else none

/-- A small concrete `MonoDetector` used by witnesses: energy 1,
detector radius 2, maximal q 3, hence `q_range = [0, 3]`. -/
def monoS : PeaksState := MonoDetector.init defaultE (2, 2) 1 10 1 (1/2)

/-- The state `monoS` after registering one material. -/
def monoS1 : PeaksState := stateOf (add_peaks defaultE monoS "Al" 1 1)

/-- A concrete `EnergyDetector`, as produced by the constructor with
the i12 beamline entry of `defaultE`. -/
def edxdS : PeaksState :=
  match EnergyDetector.init defaultE (1/2) "i12" with
  | .ok s => s
  | .error _ => monoS

/-- The external interface with a peak lookup that always fails. -/
def failE : Externals := { defaultE with peak_details := fun _ _ => none }

/-- The peak-height array computed by a successful `add_peaks` call:
the elementwise product of the non-plotting intensity factors at the
peak positions with the multiplicities and the weight, divided by
`sigma_q(q0) * sqrt(2*pi)` (so the Gaussian area equals the integrated
intensity). -/
def peakHeights (E : Externals) (s : PeaksState) (material : String)
    (b weight : ℚ) (q0v m : List ℚ) : List ℚ :=
  List.zipWith (fun ii sg => ii / (sg * E.sqrt2pi))
    ((List.zipWith (fun x y => x * y)
      (List.zipWith (fun x y => x * y)
        (List.zipWith (fun x y => x * y)
          (List.zipWith (fun x y => x * y)
            (q0v.map (fun qv => E.scattering_factor material qv)) m)
          (q0v.map (fun qv => E.temperature_factor qv b)))
        (q0v.map (fun qv =>
          if s.method = "mono" then E.lp_factor (E.q_to_tth qv s.energy) else 1)))
      (q0v.map (fun qv =>
        if s.method = "edxd" then evalFluxQ E s qv else 1))).map (fun v => v * weight))
    (q0v.map (fun qv => evalSigmaQ E s qv))

/-- A small concrete detector state with one registered material whose
single peak has height 1, peak position 1 and width 1 (as the registry
would hold after an `add_peaks` with externals producing these values);
used as a concrete input by witnesses. -/
def simpleS : PeaksState where
  cls := .mono
  method := "mono"
  energy := 1
  energy_tbl := []
  two_theta := 0
  two_theta_arr := []
  shape := (2, 2)
  pixel_size := 1
  det_energy := 1
  det_dist := 10
  q_range := [0, 3]
  q0 := [("Al", [1])]
  hkl := [("Al", ["111"])]
  a := [("Al", [1])]
  sigma := [("Al", [1])]
  materials := [("Al", (1, 1))]
  sigma_q_spec := .monoSigma 1
  flux_q_spec := none

/-- The detector of the C1 scenario before the geometry change:
constructed at energy 1. -/
def c1Old : PeaksState := MonoDetector.init defaultE (2, 2) 1 10 1 (1/2)

/-- The C1 detector after registering a material and then calling
`new_setup` with energy 2 at the same distance. -/
def c1AfterNS : PeaksState :=
  stateOf (new_setup defaultE (stateOf (add_peaks defaultE c1Old "Al" 1 1)) 2 10)

/-- A fresh detector constructed directly at energy 2 (same shape,
pixel size and distance) with the same material registered. -/
def c1Fresh : PeaksState :=
  stateOf (add_peaks defaultE (MonoDetector.init defaultE (2, 2) 1 10 2 (1/2)) "Al" 1 1)

/-! ### Helper lemmas about the dict and array models -/

theorem find?_map_set {α : Type} (d : List (String × α)) (k : String) (v : α)
    (h : d.any (fun p => p.1 == k) = true) :
    (d.map (fun p => if p.1 == k then (k, v) else p)).find? (fun p => p.1 == k) =
      some (k, v) := by
  induction d with
  | nil => simp at h
  | cons p rest ih =>
    simp only [List.any_cons, Bool.or_eq_true] at h
    by_cases hp : (p.1 == k) = true
    · simp only [List.map_cons, if_pos hp]
      exact List.find?_cons_of_pos _ (by simp)
    · have hr := h.resolve_left hp
      simp only [List.map_cons, if_neg hp]
      rw [List.find?_cons_of_neg _ (by simpa using hp)]
      exact ih hr

theorem dictGet?_set_self {α : Type} (d : List (String × α)) (k : String) (v : α) :
    dictGet? (dictSet d k v) k = some v := by
  unfold dictGet? dictSet
  by_cases h : d.any (fun p => p.1 == k) = true
  · rw [if_pos h, find?_map_set d k v h]
    rfl
  · rw [if_neg h, List.find?_append]
    have hfind : d.find? (fun p => p.1 == k) = none := by
      rw [List.find?_eq_none]
      intro p hp hpk
      exact h (List.any_eq_true.mpr ⟨p, hp, hpk⟩)
    rw [hfind]
    simp [List.find?_cons_of_pos]

theorem dictGet?_map_val {α β : Type} (d : List (String × α)) (f : α → β)
    (k : String) :
    dictGet? (d.map (fun p => (p.1, f p.2))) k = (dictGet? d k).map f := by
  induction d with
  | nil => rfl
  | cons p rest ih =>
    cases hb : (p.1 == k) with
    | true => simp [dictGet?, List.find?, hb]
    | false =>
      simp only [dictGet?, List.map_cons, List.find?, hb]
      simpa [dictGet?] using ih

theorem getD_map (f : ℚ → ℚ) (as : List ℚ) (k : ℕ) (ha : k < as.length) :
    (as.map f).getD k 0 = f (as.getD k 0) := by
  induction as generalizing k with
  | nil => simp at ha
  | cons a as ih =>
    cases k with
    | zero => rfl
    | succ k =>
      simp only [List.map_cons, List.getD_cons_succ]
      exact ih k (by simpa using ha)

theorem getD_zipWith (f : ℚ → ℚ → ℚ) (as bs : List ℚ) (k : ℕ)
    (ha : k < as.length) (hb : k < bs.length) :
    (List.zipWith f as bs).getD k 0 = f (as.getD k 0) (bs.getD k 0) := by
  induction as generalizing bs k with
  | nil => simp at ha
  | cons a as ih =>
    cases bs with
    | nil => simp at hb
    | cons b bs =>
      cases k with
      | zero => rfl
      | succ k =>
        simp only [List.zipWith_cons_cons, List.getD_cons_succ]
        exact ih bs k (by simpa using ha) (by simpa using hb)

theorem pyMax2_eq_max (x y : ℚ) : pyMax2 x y = max x y := by
  unfold pyMax2
  by_cases h : x ≤ y
  · rw [if_pos h, max_eq_right h]
  · rw [if_neg h, max_eq_left (le_of_not_le h)]

theorem npMax_cons (x : ℚ) (l : List ℚ) (h : l ≠ []) :
    npMax (x :: l) = max x (npMax l) := by
  cases l with
  | nil => cases h rfl
  | cons y ys => exact pyMax2_eq_max x (npMax (y :: ys))

theorem le_npMax_of_mem {x : ℚ} {l : List ℚ} (h : x ∈ l) : x ≤ npMax l := by
  induction l with
  | nil => cases h
  | cons y ys ih =>
    cases ys with
    | nil =>
      rcases List.mem_cons.mp h with h1 | h1
      · exact le_of_eq h1
      · cases h1
    | cons z zs =>
      rw [npMax_cons y (z :: zs) (by simp)]
      rcases List.mem_cons.mp h with h1 | h1
      · exact le_max_of_le_left (le_of_eq h1)
      · exact le_max_of_le_right (ih h1)

theorem npMax_mem {l : List ℚ} (h : l ≠ []) : npMax l ∈ l := by
  induction l with
  | nil => cases h rfl
  | cons y ys ih =>
    cases ys with
    | nil => simp [npMax]
    | cons z zs =>
      rw [npMax_cons y (z :: zs) (by simp)]
      rcases max_cases y (npMax (z :: zs)) with ⟨he, _⟩ | ⟨he, _⟩
      · rw [he]; exact List.mem_cons_self y _
      · rw [he]; exact List.mem_cons_of_mem y (ih (by simp))

theorem npMax_pos {l : List ℚ} (hne : l ≠ []) (hpos : ∀ x ∈ l, 0 < x) :
    0 < npMax l :=
  hpos _ (npMax_mem hne)

theorem npMax_nonneg {l : List ℚ} (h : ∀ x ∈ l, 0 ≤ x) : 0 ≤ npMax l := by
  cases l with
  | nil => exact le_refl 0
  | cons y ys => exact h _ (npMax_mem (by simp))

theorem npMax_of_all_zero {l : List ℚ} (h : ∀ x ∈ l, x = 0) : npMax l = 0 := by
  cases l with
  | nil => rfl
  | cons y ys => exact h _ (npMax_mem (by simp))

theorem max_div_of_pos (a b d : ℚ) (hd : 0 < d) :
    max a b / d = max (a / d) (b / d) := by
  rw [div_eq_mul_inv, div_eq_mul_inv, div_eq_mul_inv]
  exact max_mul_of_nonneg a b (le_of_lt (inv_pos.mpr hd))

theorem npMax_map_div (l : List ℚ) (d : ℚ) (hd : 0 < d) :
    npMax (l.map (fun v => v / d)) = npMax l / d := by
  induction l with
  | nil => simp [npMax]
  | cons y ys ih =>
    cases ys with
    | nil => rfl
    | cons z zs =>
      rw [List.map_cons, npMax_cons _ _ (by simp), npMax_cons y (z :: zs) (by simp),
          max_div_of_pos y (npMax (z :: zs)) d hd, ih]

theorem zipWith_add_pos (l1 l2 : List ℚ) (h1 : ∀ x ∈ l1, 0 < x)
    (h2 : ∀ x ∈ l2, 0 ≤ x) :
    ∀ v ∈ List.zipWith (fun x y => x + y) l1 l2, 0 < v := by
  induction l1 generalizing l2 with
  | nil => intro v hv; simp at hv
  | cons a as ih =>
    intro v hv
    cases l2 with
    | nil => simp at hv
    | cons b bs =>
      rcases List.mem_cons.mp hv with h | h
      · rw [h]
        exact add_pos_of_pos_of_nonneg (h1 a (by simp)) (h2 b (by simp))
      · exact ih bs (fun x hx => h1 x (by simp [hx]))
          (fun x hx => h2 x (by simp [hx])) v h

theorem zipWith_add_all_zero (l1 l2 : List ℚ) (h1 : ∀ x ∈ l1, x = 0)
    (h2 : ∀ x ∈ l2, x = 0) :
    ∀ v ∈ List.zipWith (fun x y => x + y) l1 l2, v = 0 := by
  induction l1 generalizing l2 with
  | nil => intro v hv; simp at hv
  | cons a as ih =>
    intro v hv
    cases l2 with
    | nil => simp at hv
    | cons b bs =>
      rcases List.mem_cons.mp hv with h | h
      · rw [h, h1 a (by simp), h2 b (by simp)]; simp
      · exact ih bs (fun x hx => h1 x (by simp [hx]))
          (fun x hx => h2 x (by simp [hx])) v h

theorem sumCurves_cons (c : List ℚ) (rest : List (List ℚ)) (n : ℕ) :
    sumCurves (c :: rest) n =
      List.zipWith (fun x y => x + y) c (sumCurves rest n) := rfl

theorem sumCurves_length (ls : List (List ℚ)) (n : ℕ)
    (h : ∀ c ∈ ls, c.length = n) : (sumCurves ls n).length = n := by
  induction ls with
  | nil => simp [sumCurves]
  | cons c rest ih =>
    rw [sumCurves_cons, List.length_zipWith,
        ih (fun x hx => h x (by simp [hx])), h c (by simp), min_self]

theorem sumCurves_pos (ls : List (List ℚ)) (n : ℕ) (hne : ls ≠ [])
    (h : ∀ c ∈ ls, ∀ v ∈ c, 0 < v) :
    ∀ v ∈ sumCurves ls n, 0 < v := by
  induction ls with
  | nil => cases hne rfl
  | cons c rest ih =>
    rw [sumCurves_cons]
    cases rest with
    | nil =>
      exact zipWith_add_pos c _ (h c (by simp))
        (fun x hx => le_of_eq (List.eq_of_mem_replicate hx).symm)
    | cons c2 rest2 =>
      refine zipWith_add_pos c _ (h c (by simp)) ?_
      intro x hx
      exact le_of_lt (ih (by simp) (fun d hd => h d (by simp [hd])) x hx)

theorem sg_pos (E : Externals) (x : ℚ) (a q0 sigma : List ℚ) (strain : ℚ)
    (hexp : ∀ y, 0 < E.exp y) (hne : a ≠ []) (hpos : ∀ v ∈ a, 0 < v)
    (hq : a.length ≤ q0.length) (hs : a.length ≤ sigma.length) :
    0 < strained_gaussians E x a q0 sigma strain := by
  apply List.sum_pos
  · intro t ht
    obtain ⟨p, hp, rfl⟩ := List.mem_map.mp ht
    exact mul_pos (hpos _ (List.of_mem_zip hp).1) (hexp _)
  · have hlen : (a.zip (q0.zip sigma)).length = a.length := by
      rw [List.length_zip, List.length_zip]
      omega
    intro hnil
    apply hne
    have : (a.zip (q0.zip sigma)).length = 0 := by
      simpa using congrArg List.length (List.map_eq_nil_iff.mp hnil)
    rw [hlen] at this
    exact List.length_eq_zero.mp this

/-- A successful `add_peaks` call: the lookup succeeded, so the call
stores the material entry, the peak positions, the Miller labels, the
widths and the heights, and returns normally. -/
theorem add_peaks_ok (E : Externals) (s : PeaksState) (material : String)
    (b weight : ℚ) (q0v m : List ℚ) (hklv : List String)
    (hpd : E.peak_details (npMax s.q_range) material = some (q0v, m, hklv)) :
    add_peaks E s material b weight = .ok
      { s with
        materials := dictSet s.materials material (b, weight),
        q0 := dictSet s.q0 material q0v,
        hkl := dictSet s.hkl material hklv,
        sigma := dictSet s.sigma material (q0v.map (fun qv => evalSigmaQ E s qv)),
        a := dictSet s.a material (peakHeights E s material b weight q0v m) } := by
  simp only [add_peaks, hpd, intensity_factors, axisValid]
  rw [if_pos (List.mem_cons_self "q" _)]
  rfl

theorem peakHeights_length (E : Externals) (s : PeaksState) (material : String)
    (b weight : ℚ) (q0v m : List ℚ) (hm : m.length = q0v.length) :
    (peakHeights E s material b weight q0v m).length = q0v.length := by
  unfold peakHeights
  simp [List.length_zipWith, List.length_map, hm]

theorem peakHeights_getD (E : Externals) (s : PeaksState) (material : String)
    (b weight : ℚ) (q0v m : List ℚ) (hm : m.length = q0v.length)
    (k : ℕ) (hk : k < q0v.length) :
    (peakHeights E s material b weight q0v m).getD k 0 =
      E.scattering_factor material (q0v.getD k 0) * m.getD k 0 *
        E.temperature_factor (q0v.getD k 0) b *
        (if s.method = "mono" then E.lp_factor (E.q_to_tth (q0v.getD k 0) s.energy) else 1) *
        (if s.method = "edxd" then evalFluxQ E s (q0v.getD k 0) else 1) *
        weight /
      (evalSigmaQ E s (q0v.getD k 0) * E.sqrt2pi) := by
  induction q0v generalizing m k with
  | nil => simp at hk
  | cons q qs ih =>
    cases m with
    | nil => simp at hm
    | cons mv ms =>
      have hm2 : ms.length = qs.length := by simpa using hm
      cases k with
      | zero =>
        simp only [peakHeights, List.map_cons, List.zipWith_cons_cons,
          List.getD_cons_zero]
      | succ k =>
        have hk2 : k < qs.length := by simpa using hk
        simp only [peakHeights, List.map_cons, List.zipWith_cons_cons,
          List.getD_cons_succ]
        exact ih ms hm2 k hk2

/-! ### Claim theorems -/

/-- C10: constructing the base class `Peaks()` always fails: the first
statement of the initializer is the tuple-unpacking assignment of
`None` into the two targets `energy` and `two_theta`, which raises
`TypeError`, so the peak-model API is reachable only through the two
subclasses, whose initializers are overridden entirely. -/
theorem c10_peaks_init_raises :
    Peaks.init = .error (.typeError "cannot unpack non-iterable NoneType object") :=
  rfl

/-- C7: an axis incompatible with the detector mode makes `intensity`
fail with the `AxisModeError` assertion failure before any computation,
and the identical check governs `intensity_factors`; the q axis is
always valid and the secondary axis is 2theta in monochromatic mode and
energy otherwise; in particular the energy axis on a monochromatic
detector fails. -/
theorem c7_axis_mode_check (E : Externals) (rand : ℕ → ℚ) (s : PeaksState)
    (material x_axis : String) (b background phi : ℚ) (q : List ℚ)
    (st : ℚ × ℚ × ℚ) (hx : x_axis ∉ axisValid s) :
    intensity E rand s x_axis background st phi = .error (axisError s x_axis) ∧
    intensity_factors E s material b q x_axis = .error (axisError s x_axis) ∧
    "q" ∈ axisValid s ∧
    (s.method = "mono" →
      axisValid s = ["q", "2theta"] ∧
      intensity E rand s "energy" background st phi = .error (axisError s "energy")) ∧
    (s.method ≠ "mono" → axisValid s = ["q", "energy"]) := by
  refine ⟨?_, ?_, ?_, ?_, ?_⟩
  · unfold intensity
    rw [if_neg hx]
  · unfold intensity_factors
    rw [if_neg hx]
  · exact List.mem_cons_self _ _
  · intro hm
    have hv : axisValid s = ["q", "2theta"] := by simp [axisValid, hm]
    refine ⟨hv, ?_⟩
    unfold intensity
    rw [if_neg (by rw [hv]; decide)]
  · intro hm
    simp [axisValid, hm]

/-- Witness for C7: the energy axis on the concrete monochromatic
detector `monoS` is rejected. -/
theorem c7_witness :
    "energy" ∉ axisValid monoS ∧
    intensity defaultE (fun _ => 0) monoS "energy" 0 (0, 0, 0) 0 =
      .error (axisError monoS "energy") :=
  ⟨by decide,
   (c7_axis_mode_check defaultE (fun _ => 0) monoS "Al" "energy" 0 0 0 []
     (0, 0, 0) (by decide)).1⟩

/-- C9: the positional axis of `intensity` for the q axis, mapped
elementwise through the convert closure of the detector, equals the
positional axis returned for the secondary axis of the mode. -/
theorem c9_axis_round_trip (E : Externals) (rand rand2 : ℕ → ℚ)
    (s : PeaksState) (background phi : ℚ) (st : ℚ × ℚ × ℚ)
    (secondary : String)
    (hsec : secondary = if s.method = "mono" then "2theta" else "energy") :
    ∃ x1 i1 x2 i2,
      intensity E rand s "q" background st phi = .ok (x1, i1) ∧
      intensity E rand2 s secondary background st phi = .ok (x2, i2) ∧
      x1.map (fun v => convert E s v) = x2 := by
  have hq : "q" ∈ axisValid s := List.mem_cons_self _ _
  have hs2 : secondary ∈ axisValid s := by
    rw [hsec]
    unfold axisValid
    by_cases hm : s.method = "mono" <;> simp [hm]
  have hsq : ¬ secondary = "q" := by
    rw [hsec]
    by_cases hm : s.method = "mono" <;> simp [hm]
  unfold intensity
  rw [if_pos hq, if_pos hs2, if_pos (show ("q" : String) = "q" from rfl),
      if_neg hsq]
  exact ⟨_, _, _, _, rfl, rfl, rfl⟩

/-- Witness for C9 on the concrete detector `monoS1` with one
registered material. -/
theorem c9_witness :
    ("2theta" = if monoS1.method = "mono" then "2theta" else "energy") ∧
    (∃ x1 i1 x2 i2,
      intensity defaultE (fun _ => 0) monoS1 "q" 0 (0, 0, 0) 0 = .ok (x1, i1) ∧
      intensity defaultE (fun _ => 0) monoS1 "2theta" 0 (0, 0, 0) 0 = .ok (x2, i2) ∧
      x1.map (fun v => convert defaultE monoS1 v) = x2) :=
  ⟨by decide,
   c9_axis_round_trip defaultE (fun _ => 0) (fun _ => 0) monoS1 0 0 (0, 0, 0)
     "2theta" (by decide)⟩

/-- C8 (amended): `rings` is defined only on `MonoDetector`; the class
body of `EnergyDetector` does not define it, so invoking it on an
energy-dispersive setup fails with `AttributeError` from the attribute
lookup (the source defines no `NotSupportedError`). -/
theorem c8_rings_missing_on_edxd (E : Externals) (rand2 : ℕ → ℕ → ℚ)
    (s : PeaksState) (exclude_criteria crop background : ℚ)
    (st : ℚ × ℚ × ℚ) (h : s.cls = .edxd) :
    call_rings E rand2 s exclude_criteria crop background st =
      .error (.attributeError "rings") := by
  unfold call_rings
  rw [h, if_neg (by decide)]

/-- C8 (counterexample): on a concrete `EnergyDetector` instance the
rings call raises `AttributeError`, not a `NotSupportedError` (which
does not exist in the source). -/
theorem c8_counterexample :
    EnergyDetector.init defaultE (1/2) "i12" = .ok edxdS ∧
    edxdS.cls = DetCls.edxd ∧
    call_rings defaultE (fun _ _ => 0) edxdS (1/100) 0 (1/50) (0, 0, 0) =
      .error (.attributeError "rings") :=
  ⟨rfl, rfl, rfl⟩

/-- Witness for C8 applying the amended theorem to the concrete
energy-dispersive state. -/
theorem c8_witness :
    edxdS.cls = DetCls.edxd ∧
    call_rings defaultE (fun _ _ => 0) edxdS 0 0 0 (0, 0, 0) =
      .error (.attributeError "rings") :=
  ⟨rfl, c8_rings_missing_on_edxd defaultE (fun _ _ => 0) edxdS 0 0 0 (0, 0, 0) rfl⟩

/-- C2 (amended): when the external peak lookup fails, `add_peaks`
propagates the `UnknownMaterialError` and leaves the q0/hkl/a/sigma
registry untouched, but the b/weight entry of the material has already
been committed to the materials map before the lookup, so the materials
map is mutated. -/
theorem c2_add_peaks_failure_state (E : Externals) (s : PeaksState)
    (material : String) (b weight : ℚ)
    (hfail : E.peak_details (npMax s.q_range) material = none) :
    ∃ s1, add_peaks E s material b weight = .error (.unknownMaterialError, s1) ∧
      s1.q0 = s.q0 ∧ s1.hkl = s.hkl ∧ s1.a = s.a ∧ s1.sigma = s.sigma ∧
      s1.q_range = s.q_range ∧
      s1.materials = dictSet s.materials material (b, weight) := by
  refine ⟨{ s with materials := dictSet s.materials material (b, weight) }, ?_,
    rfl, rfl, rfl, rfl, rfl, rfl⟩
  simp only [add_peaks, hfail]

/-- Witness for C2 at a concrete failing lookup on `monoS`. -/
theorem c2_witness :
    failE.peak_details (npMax monoS.q_range) "Al" = none ∧
    (∃ s1, add_peaks failE monoS "Al" 1 1 = .error (.unknownMaterialError, s1) ∧
      s1.q0 = monoS.q0 ∧ s1.hkl = monoS.hkl ∧ s1.a = monoS.a ∧
      s1.sigma = monoS.sigma ∧ s1.q_range = monoS.q_range ∧
      s1.materials = dictSet monoS.materials "Al" (1, 1)) :=
  ⟨rfl, c2_add_peaks_failure_state failE monoS "Al" 1 1 rfl⟩

/-- C2 (counterexample): on `monoS` (whose materials map is empty) a
failing `add_peaks` raises, yet the materials map afterwards is not the
map from before the call: the b/weight entry has been committed. -/
theorem c2_counterexample :
    add_peaks failE monoS "Al" 1 1 =
      .error (.unknownMaterialError, { monoS with materials := [("Al", (1, 1))] }) ∧
    monoS.materials = [] ∧
    ({ monoS with materials := [("Al", (1, 1))] } : PeaksState).materials ≠
      monoS.materials :=
  ⟨rfl, rfl, by decide⟩

/-- With an empty registry the normalisation denominator of `intensity`
is zero: the total is the zero curve and the background is scaled by its
zero maximum. -/
theorem intensityDenom_of_empty (E : Externals) (rand : ℕ → ℚ)
    (s : PeaksState) (background strain : ℚ) (hq0 : s.q0 = []) :
    intensityDenom E rand s background strain = 0 := by
  have htz : ∀ v ∈ intensityTotalRaw E s strain, v = 0 := by
    unfold intensityTotalRaw intensityCurves
    rw [hq0]
    intro v hv
    simp only [List.map_nil, sumCurves, List.foldr_nil] at hv
    exact List.eq_of_mem_replicate hv
  have hbz : ∀ v ∈ intensityBg rand background
      (intensityTotalRaw E s strain), v = 0 := by
    intro v hv
    obtain ⟨k, _, rfl⟩ := List.mem_map.mp hv
    simp [npMax_of_all_zero htz]
  unfold intensityDenom
  exact npMax_of_all_zero (zipWith_add_all_zero _ _ htz hbz)

/-- C3 (amended): with no materials registered there is no guard: the
source defines no `EmptyModelError`.  `intensity` returns normally
while its normalisation denominator `np.max(i_total + background)` is
zero (the division yields NaNs in float arithmetic), and `rings` fails
with the `ValueError` of concatenating an empty list of arrays. -/
theorem c3_no_empty_model_guard (E : Externals) (rand : ℕ → ℚ)
    (rand2 : ℕ → ℕ → ℚ) (s : PeaksState) (x_axis : String)
    (background phi ec crop bg2 : ℚ) (st st2 : ℚ × ℚ × ℚ)
    (hq0 : s.q0 = []) (hx : x_axis ∈ axisValid s) :
    (∃ x i, intensity E rand s x_axis background st phi = .ok (x, i)) ∧
    intensityDenom E rand s background
      (strain_trans E st.1 st.2.1 st.2.2 phi) = 0 ∧
    rings E rand2 s ec crop bg2 st2 =
      .error (.valueError "need at least one array to concatenate") := by
  refine ⟨?_, ?_, ?_⟩
  · unfold intensity
    rw [if_pos hx]
    exact ⟨_, _, rfl⟩
  · exact intensityDenom_of_empty E rand s background _ hq0
  · simp [rings, hq0]

/-- Witness for C3 at the concrete empty-registry detector `monoS`. -/
theorem c3_witness :
    monoS.q0 = [] ∧ "q" ∈ axisValid monoS ∧
    ((∃ x i, intensity defaultE (fun _ => 0) monoS "q" (1/100) (0, 0, 0) 0 =
        .ok (x, i)) ∧
     intensityDenom defaultE (fun _ => 0) monoS (1/100)
       (strain_trans defaultE 0 0 0 0) = 0 ∧
     rings defaultE (fun _ _ => 0) monoS (1/100) 0 (1/50) (0, 0, 0) =
       .error (.valueError "need at least one array to concatenate")) :=
  ⟨rfl, by decide,
   c3_no_empty_model_guard defaultE (fun _ => 0) (fun _ _ => 0) monoS "q"
     (1/100) 0 (1/100) 0 (1/50) (0, 0, 0) (0, 0, 0) rfl (by decide)⟩

/-- C3 (counterexample): on the concrete empty-registry detector,
`intensity` returns normally with a zero normalisation maximum and
`rings` raises `ValueError`; no `EmptyModelError` is raised anywhere. -/
theorem c3_counterexample :
    isOkE (intensity defaultE (fun _ => 0) monoS "q" (1/100) (0, 0, 0) 0) = true ∧
    intensityDenom defaultE (fun _ => 0) monoS (1/100) 0 = 0 ∧
    rings defaultE (fun _ _ => 0) monoS (1/100) 0 (1/50) (0, 0, 0) =
      .error (.valueError "need at least one array to concatenate") :=
  ⟨rfl, intensityDenom_of_empty defaultE (fun _ => 0) monoS (1/100) 0 rfl, rfl⟩

/-- C5: for every material added via a successful `add_peaks` call, the
stored peak heights equal elementwise the integrated intensity
`i_sf * m * i_tf * i_lp * flux * weight` (intensity factors computed in
non-plotting mode at the peak positions) divided by
`sigma_q(q0) * sqrt(2*pi)`, so the area under each stored Gaussian
equals the physically computed integrated intensity. -/
theorem c5_peak_height_formula (E : Externals) (s : PeaksState)
    (material : String) (b weight : ℚ) (q0v m : List ℚ) (hklv : List String)
    (hpd : E.peak_details (npMax s.q_range) material = some (q0v, m, hklv))
    (hm : m.length = q0v.length) :
    ∃ s3, add_peaks E s material b weight = .ok s3 ∧
      ∃ stored, dictGet? s3.a material = some stored ∧
        stored.length = q0v.length ∧
        ∀ k, k < q0v.length →
          stored.getD k 0 =
            E.scattering_factor material (q0v.getD k 0) * m.getD k 0 *
              E.temperature_factor (q0v.getD k 0) b *
              (if s.method = "mono" then
                E.lp_factor (E.q_to_tth (q0v.getD k 0) s.energy) else 1) *
              (if s.method = "edxd" then evalFluxQ E s (q0v.getD k 0) else 1) *
              weight /
            (evalSigmaQ E s (q0v.getD k 0) * E.sqrt2pi) := by
  refine ⟨_, add_peaks_ok E s material b weight q0v m hklv hpd,
    peakHeights E s material b weight q0v m, ?_,
    peakHeights_length E s material b weight q0v m hm,
    fun k hk => peakHeights_getD E s material b weight q0v m hm k hk⟩
  exact dictGet?_set_self s.a material _

/-- Witness for C5 on the concrete detector `monoS` and the single-peak
lookup of `defaultE`. -/
theorem c5_witness :
    defaultE.peak_details (npMax monoS.q_range) "Al" = some ([1], [1], ["111"]) ∧
    ([1] : List ℚ).length = ([1] : List ℚ).length ∧
    (∃ s3, add_peaks defaultE monoS "Al" 1 1 = .ok s3 ∧
      ∃ stored, dictGet? s3.a "Al" = some stored ∧
        stored.length = ([1] : List ℚ).length ∧
        ∀ k, k < ([1] : List ℚ).length →
          stored.getD k 0 =
            defaultE.scattering_factor "Al" (([1] : List ℚ).getD k 0) *
              ([1] : List ℚ).getD k 0 *
              defaultE.temperature_factor (([1] : List ℚ).getD k 0) 1 *
              (if monoS.method = "mono" then
                defaultE.lp_factor (defaultE.q_to_tth (([1] : List ℚ).getD k 0) monoS.energy)
               else 1) *
              (if monoS.method = "edxd" then
                evalFluxQ defaultE monoS (([1] : List ℚ).getD k 0) else 1) *
              1 /
            (evalSigmaQ defaultE monoS (([1] : List ℚ).getD k 0) * defaultE.sqrt2pi)) :=
  ⟨rfl, rfl, c5_peak_height_formula defaultE monoS "Al" 1 1 [1] [1] ["111"] rfl rfl⟩

set_option maxHeartbeats 2000000 in
/-- C1: the claim fails on the source and the code is at fault:
`new_setup` updates the geometry object and `q_range` and re-adds every
material, but never assigns `self.energy`, which the `sigma_q` closure
and the Lorentz-polarization factor read at call time.  After
`new_setup(energy=2)` on a detector built at energy 1, the recomputed
sigma sequence differs from that of a fresh detector built at energy
2 with the same materials, while the q0 sequences agree; the stale
`energy` attribute is visible directly. -/
theorem c1_new_setup_stale_energy :
    isOkE (add_peaks defaultE c1Old "Al" 1 1) = true ∧
    isOkE (new_setup defaultE (stateOf (add_peaks defaultE c1Old "Al" 1 1)) 2 10) = true ∧
    dget c1AfterNS.q0 "Al" = dget c1Fresh.q0 "Al" ∧
    dget c1AfterNS.sigma "Al" ≠ dget c1Fresh.sigma "Al" ∧
    c1AfterNS.energy = 1 ∧ c1Fresh.energy = 2 := by
  refine ⟨rfl, rfl, rfl, ?_, rfl, rfl⟩
  have h1 : dget c1AfterNS.sigma "Al" = [1/2] := by
    simp [c1AfterNS, c1Old, stateOf, new_setup, new_setup_loop, add_peaks,
      intensity_factors, axisValid, MonoDetector.init, defaultE, dictSet,
      dictGet?, dget, evalSigmaQ, List.find?]
  have h2 : dget c1Fresh.sigma "Al" = [1] := by
    simp [c1Fresh, stateOf, add_peaks, intensity_factors, axisValid,
      MonoDetector.init, defaultE, dictSet, dictGet?, dget, evalSigmaQ,
      List.find?]
  rw [h1, h2]
  simp only [ne_eq, List.cons.injEq, and_true]
  norm_num

/-- C4: with at least one registered material (each with a nonempty,
positive peak set consistent with the q0/sigma registries), a valid
axis, a nonempty q_range, nonnegative background level and uniform
noise in [0,1], `intensity` returns a mapping in which every
per-material curve and the total curve are divided by
`np.max(i_total + background)`; consequently the returned total curve
has length `q_range.length`, is strictly positive, and has maximum
exactly 1. -/
theorem c4_intensity_normalized (E : Externals) (rand : ℕ → ℚ)
    (s : PeaksState) (x_axis : String) (background phi : ℚ)
    (st : ℚ × ℚ × ℚ)
    (hx : x_axis ∈ axisValid s)
    (hne : s.q0 ≠ [])
    (hqr : s.q_range ≠ [])
    (hexp : ∀ y, 0 < E.exp y)
    (hrand : ∀ k, 0 ≤ rand k ∧ rand k ≤ 1)
    (hbg : 0 ≤ background)
    (hmat : ∀ p ∈ s.q0, dget s.a p.1 ≠ [] ∧ (∀ v ∈ dget s.a p.1, 0 < v) ∧
      (dget s.a p.1).length ≤ p.2.length ∧
      (dget s.a p.1).length ≤ (dget s.sigma p.1).length) :
    ∃ x i strain total denom,
      strain = strain_trans E st.1 st.2.1 st.2.2 phi ∧
      total = List.zipWith (fun a b => a + b) (intensityTotalRaw E s strain)
        (intensityBg rand background (intensityTotalRaw E s strain)) ∧
      denom = intensityDenom E rand s background strain ∧
      intensity E rand s x_axis background st phi = .ok (x, i) ∧
      i = (dictSet (intensityCurves E s strain) "total" total).map
            (fun p => (p.1, p.2.map (fun v => v / denom))) ∧
      dictGet? i "total" = some (total.map (fun v => v / denom)) ∧
      (total.map (fun v => v / denom)).length = s.q_range.length ∧
      (∀ v ∈ total.map (fun v => v / denom), 0 < v) ∧
      npMax (total.map (fun v => v / denom)) = 1 := by
  have hcurve_facts : ∀ c ∈ (intensityCurves E s
      (strain_trans E st.1 st.2.1 st.2.2 phi)).map Prod.snd,
      c.length = s.q_range.length ∧ ∀ v ∈ c, 0 < v := by
    intro c hc
    simp only [intensityCurves, List.map_map, Function.comp] at hc
    obtain ⟨p, hp, rfl⟩ := List.mem_map.mp hc
    obtain ⟨hne1, hpos1, hlq, hls⟩ := hmat p hp
    constructor
    · exact List.length_map _ _
    · intro v hv
      obtain ⟨x, _, rfl⟩ := List.mem_map.mp hv
      exact sg_pos E x (dget s.a p.1) p.2 (dget s.sigma p.1) _ hexp hne1 hpos1 hlq hls
  have htot_pos : ∀ v ∈ intensityTotalRaw E s
      (strain_trans E st.1 st.2.1 st.2.2 phi), 0 < v := by
    apply sumCurves_pos
    · simpa [intensityCurves] using hne
    · exact fun c hc => (hcurve_facts c hc).2
  have htot_len : (intensityTotalRaw E s
      (strain_trans E st.1 st.2.1 st.2.2 phi)).length = s.q_range.length :=
    sumCurves_length _ _ (fun c hc => (hcurve_facts c hc).1)
  have hbg_nonneg : ∀ v ∈ intensityBg rand background
      (intensityTotalRaw E s (strain_trans E st.1 st.2.1 st.2.2 phi)), 0 ≤ v := by
    intro v hv
    obtain ⟨k, _, rfl⟩ := List.mem_map.mp hv
    have h0 : 0 ≤ npMax (intensityTotalRaw E s
        (strain_trans E st.1 st.2.1 st.2.2 phi)) :=
      npMax_nonneg (fun y hy => le_of_lt (htot_pos y hy))
    exact mul_nonneg hbg (mul_nonneg (hrand k).1 h0)
  have htotal_pos : ∀ v ∈ List.zipWith (fun a b => a + b)
      (intensityTotalRaw E s (strain_trans E st.1 st.2.1 st.2.2 phi))
      (intensityBg rand background
        (intensityTotalRaw E s (strain_trans E st.1 st.2.1 st.2.2 phi))), 0 < v :=
    zipWith_add_pos _ _ htot_pos hbg_nonneg
  have htotal_len : (List.zipWith (fun a b => a + b)
      (intensityTotalRaw E s (strain_trans E st.1 st.2.1 st.2.2 phi))
      (intensityBg rand background
        (intensityTotalRaw E s (strain_trans E st.1 st.2.1 st.2.2 phi)))).length =
      s.q_range.length := by
    rw [List.length_zipWith]
    have hb : (intensityBg rand background
        (intensityTotalRaw E s (strain_trans E st.1 st.2.1 st.2.2 phi))).length =
        (intensityTotalRaw E s (strain_trans E st.1 st.2.1 st.2.2 phi)).length := by
      simp [intensityBg]
    rw [hb, htot_len, min_self]
  have htotal_ne : List.zipWith (fun a b => a + b)
      (intensityTotalRaw E s (strain_trans E st.1 st.2.1 st.2.2 phi))
      (intensityBg rand background
        (intensityTotalRaw E s (strain_trans E st.1 st.2.1 st.2.2 phi))) ≠ [] := by
    intro h0
    apply hqr
    apply List.length_eq_zero.mp
    rw [← htotal_len, h0]
    rfl
  have hdd : intensityDenom E rand s background
      (strain_trans E st.1 st.2.1 st.2.2 phi) = npMax
      (List.zipWith (fun a b => a + b)
        (intensityTotalRaw E s (strain_trans E st.1 st.2.1 st.2.2 phi))
        (intensityBg rand background
          (intensityTotalRaw E s (strain_trans E st.1 st.2.1 st.2.2 phi)))) := rfl
  have hdenom_pos : 0 < intensityDenom E rand s background
      (strain_trans E st.1 st.2.1 st.2.2 phi) := by
    rw [hdd]
    exact npMax_pos htotal_ne htotal_pos
  refine ⟨(if x_axis = "q" then s.q_range else s.q_range.map (fun q => convert E s q)),
    _, _, _, _, rfl, rfl, rfl, ?_, rfl, ?_, ?_, ?_, ?_⟩
  · unfold intensity
    rw [if_pos hx]
    rfl
  · rw [dictGet?_map_val, dictGet?_set_self]
    rfl
  · rw [List.length_map]
    exact htotal_len
  · intro v hv
    obtain ⟨u, hu, rfl⟩ := List.mem_map.mp hv
    exact div_pos (htotal_pos u hu) hdenom_pos
  · rw [npMax_map_div _ _ hdenom_pos, hdd, div_self (ne_of_gt (by rw [← hdd]; exact hdenom_pos))]

/-- Witness for C4 on the concrete one-material detector `simpleS`. -/
theorem c4_witness :
    ("q" ∈ axisValid simpleS) ∧ simpleS.q0 ≠ [] ∧ simpleS.q_range ≠ [] ∧
    (∀ y, 0 < defaultE.exp y) ∧
    (∀ _k : ℕ, (0:ℚ) ≤ 0 ∧ (0:ℚ) ≤ 1) ∧ (0:ℚ) ≤ 0 ∧
    (∀ p ∈ simpleS.q0, dget simpleS.a p.1 ≠ [] ∧
      (∀ v ∈ dget simpleS.a p.1, 0 < v) ∧
      (dget simpleS.a p.1).length ≤ p.2.length ∧
      (dget simpleS.a p.1).length ≤ (dget simpleS.sigma p.1).length) ∧
    (∃ x i strain total denom,
      strain = strain_trans defaultE 0 0 0 0 ∧
      total = List.zipWith (fun a b => a + b)
        (intensityTotalRaw defaultE simpleS strain)
        (intensityBg (fun _ => 0) 0 (intensityTotalRaw defaultE simpleS strain)) ∧
      denom = intensityDenom defaultE (fun _ => 0) simpleS 0 strain ∧
      intensity defaultE (fun _ => 0) simpleS "q" 0 (0, 0, 0) 0 = .ok (x, i) ∧
      i = (dictSet (intensityCurves defaultE simpleS strain) "total" total).map
            (fun p => (p.1, p.2.map (fun v => v / denom))) ∧
      dictGet? i "total" = some (total.map (fun v => v / denom)) ∧
      (total.map (fun v => v / denom)).length = simpleS.q_range.length ∧
      (∀ v ∈ total.map (fun v => v / denom), 0 < v) ∧
      npMax (total.map (fun v => v / denom)) = 1) := by
  refine ⟨by decide, by decide, by decide, ?_, ?_, le_refl 0, ?_, ?_⟩
  · intro y
    norm_num [defaultE]
  · intro _
    exact ⟨le_refl 0, by norm_num⟩
  · decide
  · exact c4_intensity_normalized defaultE (fun _ => 0) simpleS "q" 0 0 (0, 0, 0)
      (by decide) (by decide) (by decide) (fun y => by norm_num [defaultE])
      (fun k => ⟨le_refl 0, by norm_num⟩) (le_refl 0) (by decide)

/-- C6: with a nonzero peak configuration (a positive global height
maximum, a nonempty set of peaks surviving the exclusion mask, and a
nonempty cropped grid), nonnegative exclusion threshold and background
and uniform noise in [0,1], the 2-D array returned by `rings` is
elementwise within [0,1] and its NaN-safe maximum is exactly 1: the
image is rescaled by its own NaN-safe maximum as the final step. -/
theorem c6_rings_normalized (E : Externals) (rand2 : ℕ → ℕ → ℚ)
    (s : PeaksState) (exclude_criteria crop background : ℚ)
    (st : ℚ × ℚ × ℚ)
    (hexp : ∀ y, 0 < E.exp y)
    (hrand : ∀ i j, 0 ≤ rand2 i j ∧ rand2 i j ≤ 1)
    (hbg : 0 ≤ background)
    (hcrit : 0 ≤ exclude_criteria)
    (hq0 : s.q0 ≠ [])
    (hamax : 0 < ringsAmax E s)
    (hkeep : ringsKeep E s exclude_criteria ≠ [])
    (hgrid : (ringsRaw E rand2 s exclude_criteria crop background st).flatten ≠ []) :
    ∃ img, rings E rand2 s exclude_criteria crop background st = .ok img ∧
      (∀ row ∈ img, ∀ v ∈ row, 0 ≤ v ∧ v ≤ 1) ∧
      npMax img.flatten = 1 := by
  have hkpos : ∀ t ∈ ringsKeep E s exclude_criteria, 0 < t.1 := by
    intro t ht
    have h2 := List.of_mem_filter ht
    have h3 : exclude_criteria * ringsAmax E s < t.1 := by simpa using h2
    exact lt_of_le_of_lt (mul_nonneg hcrit (le_of_lt hamax)) h3
  have hraw_pos : ∀ v ∈ (ringsRaw E rand2 s exclude_criteria crop
      background st).flatten, 0 < v := by
    intro v hv
    rw [List.mem_flatten] at hv
    obtain ⟨row, hrow, hvrow⟩ := hv
    unfold ringsRaw at hrow
    obtain ⟨r, _, rfl⟩ := List.mem_map.mp hrow
    obtain ⟨px, _, rfl⟩ := List.mem_map.mp hvrow
    have hsg : 0 < strained_gaussians E px.2.1
        ((ringsKeep E s exclude_criteria).map Prod.fst)
        ((ringsKeep E s exclude_criteria).map (fun p => p.2.1))
        ((ringsKeep E s exclude_criteria).map (fun p => p.2.2))
        (strain_trans E st.1 st.2.1 st.2.2 px.2.2) := by
      apply sg_pos
      · exact hexp
      · simpa using hkeep
      · intro w hw
        obtain ⟨t, ht, rfl⟩ := List.mem_map.mp hw
        exact hkpos t ht
      · simp [List.length_map]
      · simp [List.length_map]
    exact add_pos_of_pos_of_nonneg (div_pos hsg hamax)
      (mul_nonneg (hrand r.1 px.1).1 hbg)
  have hM : 0 < npMax (ringsRaw E rand2 s exclude_criteria crop
      background st).flatten :=
    npMax_pos hgrid hraw_pos
  have hie : s.q0.isEmpty = false := by
    cases hq : s.q0 with
    | nil => exact absurd hq hq0
    | cons a l => rfl
  refine ⟨(ringsRaw E rand2 s exclude_criteria crop background st).map
    (fun row => row.map (fun v => v / npMax (ringsRaw E rand2 s
      exclude_criteria crop background st).flatten)), ?_, ?_, ?_⟩
  · unfold rings
    rw [hie]
    rfl
  · intro row hrow v hv
    obtain ⟨rowraw, hrowraw, rfl⟩ := List.mem_map.mp hrow
    obtain ⟨u, hu, rfl⟩ := List.mem_map.mp hv
    have humem : u ∈ (ringsRaw E rand2 s exclude_criteria crop
        background st).flatten :=
      List.mem_flatten.mpr ⟨rowraw, hrowraw, hu⟩
    constructor
    · exact le_of_lt (div_pos (hraw_pos u humem) hM)
    · exact (div_le_one hM).mpr (le_npMax_of_mem humem)
  · have hjm : ((ringsRaw E rand2 s exclude_criteria crop background st).map
        (fun row => row.map (fun v => v / npMax (ringsRaw E rand2 s
          exclude_criteria crop background st).flatten))).flatten =
        (ringsRaw E rand2 s exclude_criteria crop background st).flatten.map
          (fun v => v / npMax (ringsRaw E rand2 s exclude_criteria crop
            background st).flatten) :=
      (List.map_flatten _ _).symm
    rw [hjm, npMax_map_div _ _ hM, div_self (ne_of_gt hM)]

/-- Witness for C6 on the concrete one-material detector `simpleS` with
its 1-by-1 pixel grid. -/
theorem c6_witness :
    (∀ y, 0 < defaultE.exp y) ∧
    (∀ _i _j : ℕ, (0:ℚ) ≤ 0 ∧ (0:ℚ) ≤ 1) ∧
    (0:ℚ) ≤ 0 ∧ (0:ℚ) ≤ 0 ∧ simpleS.q0 ≠ [] ∧
    0 < ringsAmax defaultE simpleS ∧
    ringsKeep defaultE simpleS 0 ≠ [] ∧
    (ringsRaw defaultE (fun _ _ => 0) simpleS 0 0 0 (0, 0, 0)).flatten ≠ [] ∧
    (∃ img, rings defaultE (fun _ _ => 0) simpleS 0 0 0 (0, 0, 0) = .ok img ∧
      (∀ row ∈ img, ∀ v ∈ row, 0 ≤ v ∧ v ≤ 1) ∧
      npMax img.flatten = 1) := by
  have hamax : 0 < ringsAmax defaultE simpleS := by
    simp [ringsAmax, ringsQ0all, ringsAall, ringsSigall, simpleS,
      strained_gaussians, defaultE, npMax]
  have hkeep : ringsKeep defaultE simpleS 0 ≠ [] := by
    simp [ringsKeep, ringsQ0all, ringsAall, ringsSigall, simpleS,
      ringsAmax, strained_gaussians, defaultE, npMax]
  have hgrid : (ringsRaw defaultE (fun _ _ => 0) simpleS 0 0 0
      (0, 0, 0)).flatten ≠ [] := by
    simp [ringsRaw, ringsCropArr, simpleS, defaultE, pyInt]
  refine ⟨fun y => by norm_num [defaultE], fun _ _ => ⟨le_refl 0, by norm_num⟩,
    le_refl 0, le_refl 0, by decide, hamax, hkeep, hgrid, ?_⟩
  exact c6_rings_normalized defaultE (fun _ _ => 0) simpleS 0 0 0 (0, 0, 0)
    (fun y => by norm_num [defaultE]) (fun _ _ => ⟨le_refl 0, by norm_num⟩)
    (le_refl 0) (le_refl 0) (by decide) hamax hkeep hgrid

end XrdProfile
